import Mathlib

/-!
Shallow embedding, in Lean 4 over ℚ, of the geospatial valuation core of the
AtividadeOSPA repository (Chicago parks valuation analysis):

* the distance→premium model (`DISTANCE_PREMIUM_TABLE`, `estimatePremium`)
  from src/composables/useCommunityAreas.ts;
* the parcel evaluator (`calculatePremium`, `getDistanceToNearestAsset`,
  `analyzeParcel`) from src/composables/useMapLayers.ts;
* the valuation-buffer generator (`isValidGeometry`, `generateParkBuffers`,
  `generateAllBuffers`) from src/composables/useParks.ts;
* the nearest-boundary hover query
  (`getDistanceToNearestParkBoundaryMiles`) from
  src/components/Analysis/PopupAnalysis.vue;
* the coverage estimator (`analyzeIsochrone`) from
  src/composables/useCommunityAreas.ts;
* the TTL cache (`useCache`) from src/composables/useCache.ts, with
  localStorage modelled as an association list.

JavaScript numbers are modelled as exact rationals; the external Turf.js
geometry primitives (point-to-line distance, buffering, area, bbox of a
geometry, grid sampling, point-in-polygon) are modelled as explicit function
parameters, with `Option` results standing for calls whose exceptions the
source catches and ignores.
-/

/-! ### Distance→premium model (useCommunityAreas.ts, lines 141-227) -/

/-- The DePaul correlation table: (miles, premium %) pairs, ascending in
distance, descending in premium. -/
def DISTANCE_PREMIUM_TABLE : List (ℚ × ℚ) :=
  [(0.2, 22.3), (0.3, 18.3), (0.4, 14.6), (0.5, 11.2), (0.6, 7.9), (0.8, 2.1)]

/-- The `for (let i = 0; ...)` interpolation loop of `estimatePremium`:
scan adjacent table entries, and on the first bracketing pair return the
linear interpolation; fall through to 0. -/
def interpSegments (d : ℚ) : List (ℚ × ℚ) → ℚ
  | a :: b :: rest =>
      if a.1 ≤ d ∧ d ≤ b.1 then
        a.2 - ((d - a.1) / (b.1 - a.1)) * (a.2 - b.2)
      else interpSegments d (b :: rest)
  | _ => 0

/-- `estimatePremium` (useCommunityAreas.ts lines 203-227): flat cap at or
below the first table entry, linear decay at 10 %/mile at or beyond the last
entry (floored at 0), linear interpolation in between. -/
def estimatePremium (distanceMiles : ℚ) : ℚ :=
  let first := DISTANCE_PREMIUM_TABLE.headI
  let lastEntry := DISTANCE_PREMIUM_TABLE.getLastD first
  if distanceMiles ≤ first.1 then first.2
  else if lastEntry.1 ≤ distanceMiles then
    max 0 (lastEntry.2 - (distanceMiles - lastEntry.1) * 10)
  else interpSegments distanceMiles DISTANCE_PREMIUM_TABLE

/-- C1: the tabulated anchor values of the distance-to-premium function:
`estimatePremium 0.2 = 22.3`, `estimatePremium 0.1 = 22.3` (flat below the
smallest tabulated distance), `estimatePremium 0.8 = 2.1`,
`estimatePremium 1.0 = max 0 (2.1 - 0.2*10) = 0.1` (linear decay at 10
percentage-points per mile beyond the last entry), and
`estimatePremium 5.0 = 0`. -/
theorem estimatePremium_anchor_values :
    estimatePremium 0.2 = 22.3 ∧
    estimatePremium 0.1 = 22.3 ∧
    estimatePremium 0.8 = 2.1 ∧
    estimatePremium 1 = max 0 (2.1 - 0.2 * 10) ∧
    max 0 (2.1 - 0.2 * 10) = (0.1 : ℚ) ∧
    estimatePremium 5 = 0 := by
  refine ⟨?_, ?_, ?_, ?_, ?_, ?_⟩ <;>
    norm_num [estimatePremium, DISTANCE_PREMIUM_TABLE, interpSegments,
      List.headI, List.getLastD]

/-! ### Monotonicity of the premium model (claim C2) -/

/-- Well-formedness of a premium table: distances strictly increase and
premiums do not increase along adjacent entries. -/
def sortedDesc : List (ℚ × ℚ) → Bool
  | a :: b :: rest => (decide (a.1 < b.1) && decide (b.2 ≤ a.2)) && sortedDesc (b :: rest)
  | _ => true

theorem sortedDesc_head_pair {a b : ℚ × ℚ} {rest : List (ℚ × ℚ)}
    (h : sortedDesc (a :: b :: rest) = true) :
    a.1 < b.1 ∧ b.2 ≤ a.2 ∧ sortedDesc (b :: rest) = true := by
  simp only [sortedDesc, Bool.and_eq_true, decide_eq_true_eq] at h
  exact ⟨h.1.1, h.1.2, h.2⟩

/-- Along a well-formed table the last premium is at most the first one. -/
theorem sortedDesc_getLastD_le {a : ℚ × ℚ} {l : List (ℚ × ℚ)}
    (h : sortedDesc (a :: l) = true) : ((a :: l).getLastD a).2 ≤ a.2 := by
  induction l generalizing a with
  | nil => simp [List.getLastD]
  | cons b t ih =>
      obtain ⟨_, hba, hs⟩ := sortedDesc_head_pair h
      have hb := ih (a := b) hs
      simp only [List.getLastD_cons] at hb ⊢
      exact le_trans hb hba

/-- Both bounds on one linear interpolation step between entries `a` and
`b`. -/
theorem interp_value_bounds {a b : ℚ × ℚ} {d : ℚ} (hab : a.1 < b.1)
    (hba : b.2 ≤ a.2) (h1 : a.1 ≤ d) (h2 : d ≤ b.1) :
    b.2 ≤ a.2 - (d - a.1) / (b.1 - a.1) * (a.2 - b.2) ∧
      a.2 - (d - a.1) / (b.1 - a.1) * (a.2 - b.2) ≤ a.2 := by
  have hden : (0 : ℚ) < b.1 - a.1 := by linarith
  have hr0 : 0 ≤ (d - a.1) / (b.1 - a.1) := div_nonneg (by linarith) hden.le
  have hr1 : (d - a.1) / (b.1 - a.1) ≤ 1 := by
    rw [div_le_one hden]; linarith
  constructor
  · have hmul := mul_le_mul_of_nonneg_right hr1 (by linarith : (0:ℚ) ≤ a.2 - b.2)
    linarith
  · have hmul := mul_nonneg hr0 (by linarith : (0:ℚ) ≤ a.2 - b.2)
    linarith

/-- The interpolation loop never exceeds the first entry's premium, for an
in-range query. -/
theorem interpSegments_le_head {a : ℚ × ℚ} {l : List (ℚ × ℚ)} {d : ℚ}
    (hs : sortedDesc (a :: l) = true) (h1 : a.1 ≤ d)
    (h2 : d < ((a :: l).getLastD a).1) :
    interpSegments d (a :: l) ≤ a.2 := by
  induction l generalizing a with
  | nil =>
      rw [List.getLastD_cons, List.getLastD_nil] at h2
      exact absurd h1 (not_le.mpr h2)
  | cons b t ih =>
      obtain ⟨hab, hba, hs'⟩ := sortedDesc_head_pair hs
      by_cases hd : d ≤ b.1
      · rw [interpSegments, if_pos ⟨h1, hd⟩]
        exact (interp_value_bounds hab hba h1 hd).2
      · rw [interpSegments, if_neg (fun hc => hd hc.2)]
        have h2' : d < ((b :: t).getLastD b).1 := by
          simp only [List.getLastD_cons] at h2 ⊢; exact h2
        exact le_trans (ih hs' (not_le.mp hd).le h2') hba

/-- The interpolation loop never drops below the last entry's premium, for
an in-range query. -/
theorem interpSegments_ge_last {a : ℚ × ℚ} {l : List (ℚ × ℚ)} {d : ℚ}
    (hs : sortedDesc (a :: l) = true) (h1 : a.1 ≤ d)
    (h2 : d < ((a :: l).getLastD a).1) :
    ((a :: l).getLastD a).2 ≤ interpSegments d (a :: l) := by
  induction l generalizing a with
  | nil =>
      rw [List.getLastD_cons, List.getLastD_nil] at h2
      exact absurd h1 (not_le.mpr h2)
  | cons b t ih =>
      obtain ⟨hab, hba, hs'⟩ := sortedDesc_head_pair hs
      by_cases hd : d ≤ b.1
      · rw [interpSegments, if_pos ⟨h1, hd⟩]
        have hlast : ((b :: t).getLastD b).2 ≤ b.2 := sortedDesc_getLastD_le hs'
        have hval := (interp_value_bounds hab hba h1 hd).1
        simp only [List.getLastD_cons] at hlast ⊢
        linarith
      · rw [interpSegments, if_neg (fun hc => hd hc.2)]
        have h2' : d < ((b :: t).getLastD b).1 := by
          simp only [List.getLastD_cons] at h2 ⊢; exact h2
        have hrec := ih hs' (not_le.mp hd).le h2'
        simp only [List.getLastD_cons] at hrec ⊢
        exact hrec

/-- The interpolation loop is antitone on the tabulated range. -/
theorem interpSegments_antitone {a : ℚ × ℚ} {l : List (ℚ × ℚ)} {d1 d2 : ℚ}
    (hs : sortedDesc (a :: l) = true) (h1 : a.1 ≤ d1) (h12 : d1 ≤ d2)
    (h2 : d2 < ((a :: l).getLastD a).1) :
    interpSegments d2 (a :: l) ≤ interpSegments d1 (a :: l) := by
  induction l generalizing a with
  | nil =>
      rw [List.getLastD_cons, List.getLastD_nil] at h2
      exact absurd (le_trans h1 h12) (not_le.mpr h2)
  | cons b t ih =>
      obtain ⟨hab, hba, hs'⟩ := sortedDesc_head_pair hs
      by_cases hc2 : d2 ≤ b.1
      · rw [interpSegments, if_pos ⟨le_trans h1 h12, hc2⟩,
          interpSegments, if_pos ⟨h1, le_trans h12 hc2⟩]
        have hden : (0 : ℚ) < b.1 - a.1 := by linarith
        have hr : (d1 - a.1) / (b.1 - a.1) ≤ (d2 - a.1) / (b.1 - a.1) := by
          rw [div_le_div_iff₀ hden hden]
          exact mul_le_mul_of_nonneg_right (by linarith) (by linarith)
        have hmul := mul_le_mul_of_nonneg_right hr
          (by linarith : (0:ℚ) ≤ a.2 - b.2)
        linarith
      · have hlt2 : b.1 < d2 := not_le.mp hc2
        have h2' : d2 < ((b :: t).getLastD b).1 := by
          simp only [List.getLastD_cons] at h2 ⊢; exact h2
        by_cases hc1 : d1 ≤ b.1
        · rw [interpSegments, if_neg (fun hc => hc2 hc.2),
            interpSegments, if_pos ⟨h1, hc1⟩]
          have hval := (interp_value_bounds hab hba h1 hc1).1
          have hup := interpSegments_le_head hs' hlt2.le h2'
          linarith
        · rw [interpSegments, if_neg (fun hc => hc2 hc.2),
            interpSegments, if_neg (fun hc => hc1 hc.2)]
          exact ih hs' (not_le.mp hc1).le h2'

theorem distance_premium_table_sorted : sortedDesc DISTANCE_PREMIUM_TABLE = true := by
  norm_num [sortedDesc, DISTANCE_PREMIUM_TABLE]

/-- The concrete tail of the premium table, used to instantiate the list
lemmas at the head entry (0.2, 22.3). -/
def premiumTableTail : List (ℚ × ℚ) :=
  [(0.3, 18.3), (0.4, 14.6), (0.5, 11.2), (0.6, 7.9), (0.8, 2.1)]

theorem distance_premium_table_eq :
    DISTANCE_PREMIUM_TABLE = (0.2, 22.3) :: premiumTableTail := rfl

theorem interpSegments_table_le (d : ℚ) (hlo : 0.2 ≤ d) (hhi : d < 0.8) :
    interpSegments d DISTANCE_PREMIUM_TABLE ≤ 22.3 := by
  rw [distance_premium_table_eq]
  have := interpSegments_le_head (a := ((0.2 : ℚ), (22.3 : ℚ)))
    (l := premiumTableTail) (d := d)
    (by rw [← distance_premium_table_eq]; exact distance_premium_table_sorted)
    hlo (by exact hhi)
  exact this

theorem interpSegments_table_ge (d : ℚ) (hlo : 0.2 ≤ d) (hhi : d < 0.8) :
    (2.1 : ℚ) ≤ interpSegments d DISTANCE_PREMIUM_TABLE := by
  rw [distance_premium_table_eq]
  have := interpSegments_ge_last (a := ((0.2 : ℚ), (22.3 : ℚ)))
    (l := premiumTableTail) (d := d)
    (by rw [← distance_premium_table_eq]; exact distance_premium_table_sorted)
    hlo (by exact hhi)
  exact this

theorem interpSegments_table_antitone (d1 d2 : ℚ) (hlo : 0.2 ≤ d1)
    (h12 : d1 ≤ d2) (hhi : d2 < 0.8) :
    interpSegments d2 DISTANCE_PREMIUM_TABLE ≤
      interpSegments d1 DISTANCE_PREMIUM_TABLE := by
  rw [distance_premium_table_eq]
  exact interpSegments_antitone (a := ((0.2 : ℚ), (22.3 : ℚ)))
    (l := premiumTableTail)
    (by rw [← distance_premium_table_eq]; exact distance_premium_table_sorted)
    hlo h12 (by exact hhi)

theorem estimatePremium_eq (d : ℚ) :
    estimatePremium d =
      if d ≤ 0.2 then 22.3
      else if 0.8 ≤ d then max 0 (2.1 - (d - 0.8) * 10)
      else interpSegments d DISTANCE_PREMIUM_TABLE := rfl

/-- C2: for distances d1 < d2 both within the tabulated range [0.2, 0.8]
miles, `estimatePremium d1 ≥ estimatePremium d2`: the premium computed by
flat-cap, linear interpolation between bracketing table entries, and the
table itself is monotonically non-increasing in distance. -/
theorem estimatePremium_antitone_on_table_range (d1 d2 : ℚ)
    (hlo : 0.2 ≤ d1) (h12 : d1 < d2) (hhi : d2 ≤ 0.8) :
    estimatePremium d2 ≤ estimatePremium d1 := by
  rw [estimatePremium_eq d1, estimatePremium_eq d2]
  by_cases hc1 : d1 ≤ 0.2
  · rw [if_pos hc1]
    have hd2 : ¬ d2 ≤ 0.2 := by linarith
    rw [if_neg hd2]
    by_cases hc3 : (0.8 : ℚ) ≤ d2
    · rw [if_pos hc3]
      have : d2 = 0.8 := le_antisymm hhi hc3
      subst this
      norm_num
    · rw [if_neg hc3]
      exact interpSegments_table_le d2 (by linarith) (not_le.mp hc3)
  · rw [if_neg hc1]
    have hlo1 : (0.2 : ℚ) < d1 := not_le.mp hc1
    have hd1hi : ¬ (0.8 : ℚ) ≤ d1 := by linarith
    rw [if_neg hd1hi]
    have hd2 : ¬ d2 ≤ 0.2 := by linarith
    rw [if_neg hd2]
    by_cases hc3 : (0.8 : ℚ) ≤ d2
    · rw [if_pos hc3]
      have : d2 = 0.8 := le_antisymm hhi hc3
      subst this
      have := interpSegments_table_ge d1 hlo1.le (by linarith)
      norm_num
      linarith
    · rw [if_neg hc3]
      exact interpSegments_table_antitone d1 d2 hlo1.le h12.le (not_le.mp hc3)

/-- C2 witness: the monotonicity theorem applied at the concrete pair
d1 = 0.3, d2 = 0.5. -/
theorem estimatePremium_antitone_witness :
    (0.2 : ℚ) ≤ 0.3 ∧ (0.3 : ℚ) < 0.5 ∧ (0.5 : ℚ) ≤ 0.8 ∧
      estimatePremium 0.5 ≤ estimatePremium 0.3 :=
  ⟨by norm_num, by norm_num, by norm_num,
    estimatePremium_antitone_on_table_range 0.3 0.5 (by norm_num) (by norm_num)
      (by norm_num)⟩

/-! ### Geometry data model (src/types/index.ts) -/

/-- GeoJSON-like geometry (src/types/index.ts `GeoJSONGeometry`): Polygon or
MultiPolygon coordinate arrays, plus one constructor covering the other
members of the source's type union (Point, LineString, MultiLineString),
which the polygon validators reject. -/
inductive Geometry where
  | polygon (coordinates : List (List (ℚ × ℚ)))
  | multiPolygon (coordinates : List (List (List (ℚ × ℚ))))
  | otherType
deriving DecidableEq

/-- A park record (src/types/index.ts `Park`): numeric id, name, optional
acreage, optional geometry. -/
structure Park where
  park_no : ℕ
  park_name : String
  acres : Option ℚ
  the_geom : Option Geometry
deriving DecidableEq

/-! ### Parcel evaluator (useMapLayers.ts lines 122-285) and the single-tier
valuation configuration (useParks.ts lines 172-178) -/

/-- `VALUATION_CONFIG` from useParks.ts: a single 0.2-mile buffer tier at
+22.3 % premium. -/
structure ValuationConfig where
  distance : ℚ
  premium : ℚ
  label : String
  color : String
  opacity : ℚ

def VALUATION_CONFIG : ValuationConfig :=
  { distance := 0.2, premium := 22.3, label := "0-0.2 mi",
    color := "#6B97C2", opacity := 0.6 }

/-- `calculatePremium` (useMapLayers.ts lines 194-196): the single-tier
threshold rule of the parcel evaluator. -/
def calculatePremium (distanceMiles : ℚ) : ℚ :=
  if distanceMiles ≤ VALUATION_CONFIG.distance then VALUATION_CONFIG.premium else 0

/-- `getDistanceToNearestAsset` (useMapLayers.ts lines 149-186).
`boundaryDist p g` models the Turf.js call chain
`pointToLineDistance(p, polygonToLine(g), miles)`; `none` stands for a
thrown and caught geometry error, which the source skips. -/
def getDistanceToNearestAsset (boundaryDist : ℚ × ℚ → Geometry → Option ℚ)
    (parcelPoint : ℚ × ℚ) (assets : List Park) : Option (String × ℚ) :=
  if assets.isEmpty then none
  else
    assets.foldl (fun acc asset =>
      match asset.the_geom with
      | none => acc
      | some g =>
        match boundaryDist parcelPoint g with
        | none => acc
        | some distance =>
          match acc with
          | none => some (asset.park_name, distance)
          | some (_, m) =>
            if distance < m then some (asset.park_name, distance) else acc)
      none

/-- The `valuation` field of `ParcelAnalysisResult` (useMapLayers.ts
lines 130-134). -/
structure ParcelValuation where
  premium : ℚ
  baseValue : ℚ
  valuatedValue : ℚ
deriving DecidableEq

/-- `ParcelAnalysisResult` (useMapLayers.ts lines 122-135), with the raw
parcel payload omitted (it is passed through unchanged). -/
structure ParcelAnalysisResult where
  isInValuationZone : Bool
  nearestAsset : Option (String × ℚ)
  valuation : Option ParcelValuation
deriving DecidableEq

/-- The synchronous core of `analyzeParcel` (useMapLayers.ts lines 211-285)
after the parcel fetch has succeeded: zone cutoff at 0.8 miles, single-tier
premium, and the financial simulation with the fixed base value 1000. -/
def analyzeParcel (boundaryDist : ℚ × ℚ → Geometry → Option ℚ)
    (parcelPoint : ℚ × ℚ) (parks : List Park) : ParcelAnalysisResult :=
  match getDistanceToNearestAsset boundaryDist parcelPoint parks with
  | none => ⟨false, none, none⟩
  | some (name, distanceMiles) =>
    if 0.8 < distanceMiles then ⟨false, none, none⟩
    else
      let premium := calculatePremium distanceMiles
      let baseValue : ℚ := 1000
      ⟨true, some (name, distanceMiles),
        some ⟨premium, baseValue, baseValue * (1 + premium / 100)⟩⟩

/-- C3: in the parcel evaluator, if no park is found or the nearest
park-boundary distance exceeds 0.8 miles, the result has
`isInValuationZone = false`, `nearestAsset = none` and `valuation = none`;
otherwise `isInValuationZone = true`, the premium is 22.3 when the distance
is at most 0.2 miles and 0 otherwise, and the valuated value is
`baseValue * (1 + premium/100)` with the fixed base value 1000 — so a point
at distance 0 gets premium 22.3 and valuated value `1000 * 1.223`. -/
theorem analyzeParcel_valuation_spec
    (boundaryDist : ℚ × ℚ → Geometry → Option ℚ) (parcelPoint : ℚ × ℚ)
    (parks : List Park) :
    (getDistanceToNearestAsset boundaryDist parcelPoint parks = none →
      analyzeParcel boundaryDist parcelPoint parks = ⟨false, none, none⟩) ∧
    (∀ name d,
      getDistanceToNearestAsset boundaryDist parcelPoint parks = some (name, d) →
      (0.8 < d →
        analyzeParcel boundaryDist parcelPoint parks = ⟨false, none, none⟩) ∧
      (d ≤ 0.8 →
        analyzeParcel boundaryDist parcelPoint parks =
          ⟨true, some (name, d),
            some ⟨if d ≤ 0.2 then 22.3 else 0, 1000,
              1000 * (1 + (if d ≤ 0.2 then 22.3 else 0) / 100)⟩⟩) ∧
      (d = 0 →
        (analyzeParcel boundaryDist parcelPoint parks).valuation =
          some ⟨22.3, 1000, 1000 * 1.223⟩)) := by
  constructor
  · intro h
    simp [analyzeParcel, h]
  · intro name d h
    refine ⟨?_, ?_, ?_⟩
    · intro hgt
      simp [analyzeParcel, h, if_pos hgt]
    · intro hle
      simp [analyzeParcel, h, if_neg (not_lt.mpr hle), calculatePremium,
        VALUATION_CONFIG]
    · intro h0
      subst h0
      have h08 : ¬ (0.8 : ℚ) < 0 := by norm_num
      have h02 : (0 : ℚ) ≤ 0.2 := by norm_num
      simp [analyzeParcel, h, if_neg h08, calculatePremium, VALUATION_CONFIG,
        if_pos h02]
      norm_num

/-- A park sitting exactly at the queried point: the distance oracle
reports 0 miles. -/
def parcelDemoPark : Park :=
  ⟨1, "Lincoln Park", none, some (Geometry.polygon [[(0,0),(0,1),(1,1),(0,0)]])⟩

def parcelDemoDist : ℚ × ℚ → Geometry → Option ℚ := fun _ _ => some 0

/-- C3 witness: the evaluator applied at a concrete park at distance 0. -/
theorem analyzeParcel_valuation_witness :
    (analyzeParcel parcelDemoDist (0, 0) [parcelDemoPark]).valuation =
      some ⟨22.3, 1000, 1000 * 1.223⟩ :=
  ((analyzeParcel_valuation_spec parcelDemoDist (0, 0) [parcelDemoPark]).2
    "Lincoln Park" 0 (by rfl)).2.2 rfl

/-! ### Valuation buffer generator (useParks.ts lines 180-263) -/

/-- `isValidGeometry` (useParks.ts lines 202-217): a Polygon is valid when
its outer ring has at least 4 coordinate pairs; a MultiPolygon when every
polygon's outer ring does (vacuously true for an empty polygon list, as the
source's `Array.every`); anything else is invalid.  An absent outer ring
(`coordinates[0]` undefined) fails the source's `Array.isArray` test. -/
def isValidGeometry : Geometry → Bool
  | .polygon coords =>
      match coords with
      | [] => false
      | ring :: _ => decide (4 ≤ ring.length)
  | .multiPolygon polys =>
      polys.all (fun poly =>
        match poly with
        | [] => false
        | ring :: _ => decide (4 ≤ ring.length))
  | .otherType => false

/-- `ValuationBuffer` (useParks.ts lines 180-188). -/
structure ValuationBuffer where
  id : String
  sourceType : String
  sourceId : ℕ
  sourceName : String
  distanceZone : String
  premium : ℚ
  geometry : Geometry

/-- `generateParkBuffers` (useParks.ts lines 223-247). `bufferFn g` models
`turf.buffer(g, 0.2, miles)`: `none` stands both for an `undefined` buffer
result and for a thrown and caught buffering error. -/
def generateParkBuffers (bufferFn : Geometry → Option Geometry)
    (park : Park) : List ValuationBuffer :=
  match park.the_geom with
  | none => []
  | some g =>
    if ¬ isValidGeometry g then []
    else
      match bufferFn g with
      | none => []
      | some buffered =>
        [{ id := "park-" ++ toString park.park_no ++ "-buffer",
           sourceType := "park",
           sourceId := park.park_no,
           sourceName := park.park_name,
           distanceZone := VALUATION_CONFIG.label,
           premium := VALUATION_CONFIG.premium,
           geometry := buffered }]

/-- `generateAllBuffers` (useParks.ts lines 249-263): fold over the parks,
appending each park's buffer list when it is non-empty. -/
def generateAllBuffers (bufferFn : Geometry → Option Geometry)
    (parks : List Park) : List ValuationBuffer :=
  parks.foldl (fun all park =>
    let parkBuffers := generateParkBuffers bufferFn park
    if parkBuffers.length ≠ 0 then all ++ parkBuffers else all) []

theorem foldl_append_buffers (f : Park → List ValuationBuffer) :
    ∀ (parks : List Park) (init : List ValuationBuffer),
      parks.foldl (fun all park =>
        let parkBuffers := f park
        if parkBuffers.length ≠ 0 then all ++ parkBuffers else all) init
        = init ++ parks.flatMap f := by
  intro parks
  induction parks with
  | nil => intro init; simp
  | cons p ps ih =>
      intro init
      simp only [List.foldl_cons, List.flatMap_cons]
      by_cases h : (f p).length ≠ 0
      · rw [if_pos h, ih, List.append_assoc]
      · have hempty : f p = [] := by
          simpa using List.length_eq_zero.mp (not_ne_iff.mp h)
        rw [if_neg h, ih, hempty]
        simp

/-- C6: `generateParkBuffers` returns 0 or 1 buffers; it returns the empty
list whenever the park's geometry is absent or fails ring-count validation;
and `generateAllBuffers` is exactly the concatenation of the per-park
results, so a malformed park contributes nothing and does not abort or
alter the other parks' results. -/
theorem generateBuffers_spec (bufferFn : Geometry → Option Geometry)
    (park : Park) (parks : List Park) :
    (generateParkBuffers bufferFn park).length ≤ 1 ∧
    (park.the_geom = none → generateParkBuffers bufferFn park = []) ∧
    (∀ g, park.the_geom = some g → isValidGeometry g = false →
      generateParkBuffers bufferFn park = []) ∧
    generateAllBuffers bufferFn parks =
      parks.flatMap (generateParkBuffers bufferFn) := by
  refine ⟨?_, ?_, ?_, ?_⟩
  · cases hg : park.the_geom with
    | none => simp [generateParkBuffers, hg]
    | some g =>
        by_cases hv : isValidGeometry g
        · cases hb : bufferFn g <;>
            simp [generateParkBuffers, hg, hv, hb]
        · simp [generateParkBuffers, hg, hv]
  · intro h
    simp [generateParkBuffers, h]
  · intro g hg hv
    simp [generateParkBuffers, hg, hv]
  · rw [generateAllBuffers, foldl_append_buffers]
    simp

/-- A park with `the_geom: null`. -/
def nullGeomPark : Park := ⟨2, "No Geom Park", none, none⟩

/-- C6 witness: the generator applied to a park with missing geometry
yields the empty buffer list. -/
theorem generateBuffers_witness :
    generateParkBuffers (fun g => some g) nullGeomPark = [] :=
  (generateBuffers_spec (fun g => some g) nullGeomPark []).2.1 rfl

/-! ### Nearest-boundary hover query (PopupAnalysis.vue lines 306-379) -/

/-- A bounding box `[minLng, minLat, maxLng, maxLat]` as produced by
`turf.bbox`. -/
structure BBox where
  minLng : ℚ
  minLat : ℚ
  maxLng : ℚ
  maxLat : ℚ
deriving DecidableEq

/-- `bboxesOverlap` (useCommunityAreas.ts lines 154-156; the same test is
inlined in PopupAnalysis.vue line 365 and useParks.ts lines 89-93):
`a[0] <= b[2] && a[2] >= b[0] && a[1] <= b[3] && a[3] >= b[1]`. -/
def bboxesOverlap (a b : BBox) : Bool :=
  decide (a.minLng ≤ b.maxLng) && decide (a.maxLng ≥ b.minLng) &&
    decide (a.minLat ≤ b.maxLat) && decide (a.maxLat ≥ b.minLat)

/-- The coordinates of one boundary LineString produced by
`turf.polygonToLine`. -/
abbrev Line := List (ℚ × ℚ)

/-- One entry of the park-boundary index (PopupAnalysis.vue lines 306-309):
a precomputed bounding box and the park's boundary lines. -/
structure ParkBoundaryEntry where
  bbox : BBox
  boundaries : List Line

/-- The `if (d < minDistance) minDistance = d` accumulator of the hover
query, with `none` standing for the initial `Infinity`. -/
def minQStep (acc : Option ℚ) (d : ℚ) : Option ℚ :=
  match acc with
  | none => some d
  | some m => if d < m then some d else acc

/-- `getDistanceToNearestParkBoundaryMiles` (PopupAnalysis.vue lines
347-379): expand the query point into a bbox using the planar
miles-to-degrees approximation, scan bbox-overlapping index entries, and
take the minimum point-to-line distance.  `pointToLineDistance` models the
Turf.js primitive (`none` = thrown and ignored error); `cosDeg lat` models
`Math.cos((lat * Math.PI) / 180)`. -/
def getDistanceToNearestParkBoundaryMiles
    (pointToLineDistance : ℚ × ℚ → Line → Option ℚ) (cosDeg : ℚ → ℚ)
    (index : List ParkBoundaryEntry) (lng lat maxMiles : ℚ) : Option ℚ :=
  if index.isEmpty then none
  else
    let deltaLat := maxMiles / 69
    let deltaLng := maxMiles / (69 * cosDeg lat)
    let pointBbox : BBox :=
      ⟨lng - deltaLng, lat - deltaLat, lng + deltaLng, lat + deltaLat⟩
    index.foldl (fun minDistance entry =>
      if bboxesOverlap pointBbox entry.bbox then
        entry.boundaries.foldl (fun acc line =>
          match pointToLineDistance (lng, lat) line with
          | none => acc
          | some d => minQStep acc d) minDistance
      else minDistance) none

/-- The distances the hover query actually tests: every successful
point-to-line distance of every index entry whose bounding box overlaps
the expanded query box. -/
def boundaryCandidates (pointToLineDistance : ℚ × ℚ → Line → Option ℚ)
    (cosDeg : ℚ → ℚ) (index : List ParkBoundaryEntry)
    (lng lat maxMiles : ℚ) : List ℚ :=
  let deltaLat := maxMiles / 69
  let deltaLng := maxMiles / (69 * cosDeg lat)
  let pointBbox : BBox :=
    ⟨lng - deltaLng, lat - deltaLat, lng + deltaLng, lat + deltaLat⟩
  (index.filter (fun e => bboxesOverlap pointBbox e.bbox)).flatMap
    (fun e => e.boundaries.filterMap (pointToLineDistance (lng, lat)))

/-- Running minimum of a list of rationals, `none` when the list is
empty. -/
def listMinQ (l : List ℚ) : Option ℚ := l.foldl minQStep none

theorem foldl_minQ_filterMap (dist : Line → Option ℚ) :
    ∀ (lines : List Line) (acc : Option ℚ),
      lines.foldl (fun acc line =>
        match dist line with
        | none => acc
        | some d => minQStep acc d) acc
        = (lines.filterMap dist).foldl minQStep acc := by
  intro lines
  induction lines with
  | nil => intro acc; simp
  | cons l ls ih =>
      intro acc
      cases h : dist l <;> simp [List.filterMap_cons, h, ih]

theorem foldl_boundary_entries (pointToLineDistance : ℚ × ℚ → Line → Option ℚ)
    (lng lat : ℚ) (pointBbox : BBox) :
    ∀ (index : List ParkBoundaryEntry) (acc : Option ℚ),
      index.foldl (fun minDistance entry =>
        if bboxesOverlap pointBbox entry.bbox then
          entry.boundaries.foldl (fun a line =>
            match pointToLineDistance (lng, lat) line with
            | none => a
            | some d => minQStep a d) minDistance
        else minDistance) acc
        = ((index.filter (fun e => bboxesOverlap pointBbox e.bbox)).flatMap
            (fun e => e.boundaries.filterMap
              (pointToLineDistance (lng, lat)))).foldl minQStep acc := by
  intro index
  induction index with
  | nil => intro acc; simp
  | cons e es ih =>
      intro acc
      rw [List.foldl_cons]
      by_cases hov : bboxesOverlap pointBbox e.bbox
      · rw [if_pos hov, foldl_minQ_filterMap, ih,
          List.filter_cons_of_pos (by simpa using hov), List.flatMap_cons,
          List.foldl_append]
      · rw [if_neg (by simpa using hov), ih,
          List.filter_cons_of_neg (by simpa using hov)]

theorem minQ_foldl_some (l : List ℚ) :
    ∀ (m0 : ℚ), ∃ m, l.foldl minQStep (some m0) = some m ∧ m ≤ m0 ∧
      (m ∈ l ∨ m = m0) ∧ ∀ d ∈ l, m ≤ d := by
  induction l with
  | nil =>
      intro m0
      exact ⟨m0, rfl, le_refl _, Or.inr rfl, by simp⟩
  | cons d l ih =>
      intro m0
      by_cases hd : d < m0
      · obtain ⟨m, hm, hle, hmem, hall⟩ := ih d
        refine ⟨m, ?_, le_trans hle hd.le, ?_, ?_⟩
        · simpa [minQStep, if_pos hd] using hm
        · rcases hmem with h | h
          · exact Or.inl (List.mem_cons_of_mem _ h)
          · exact Or.inl (h ▸ List.mem_cons_self _ _)
        · intro d' hd'
          rcases List.mem_cons.mp hd' with h | h
          · exact h ▸ hle
          · exact hall d' h
      · obtain ⟨m, hm, hle, hmem, hall⟩ := ih m0
        refine ⟨m, ?_, hle, ?_, ?_⟩
        · simpa [minQStep, if_neg hd] using hm
        · rcases hmem with h | h
          · exact Or.inl (List.mem_cons_of_mem _ h)
          · exact Or.inr h
        · intro d' hd'
          rcases List.mem_cons.mp hd' with h | h
          · exact h ▸ le_trans hle (not_lt.mp hd)
          · exact hall d' h

theorem listMinQ_none_iff (l : List ℚ) : listMinQ l = none ↔ l = [] := by
  cases l with
  | nil => simp [listMinQ]
  | cons d l =>
      obtain ⟨m, hm, -, -, -⟩ := minQ_foldl_some l d
      simp [listMinQ, minQStep, hm]

theorem listMinQ_some (l : List ℚ) (m : ℚ) (h : listMinQ l = some m) :
    m ∈ l ∧ ∀ d ∈ l, m ≤ d := by
  cases l with
  | nil => simp [listMinQ] at h
  | cons d l =>
      obtain ⟨m2, hm2, hle, hmem, hall⟩ := minQ_foldl_some l d
      rw [listMinQ, List.foldl_cons] at h
      have hstep : minQStep none d = some d := rfl
      rw [hstep, hm2] at h
      injection h with h
      subst h
      constructor
      · rcases hmem with hmem | hmem
        · exact List.mem_cons_of_mem _ hmem
        · exact hmem ▸ List.mem_cons_self _ _
      · intro d' hd'
        rcases List.mem_cons.mp hd' with h' | h'
        · exact h' ▸ hle
        · exact hall d' h'

/-- C4 (amended): the hover query returns the minimum point-to-line
distance over exactly the index entries whose bounding box overlaps the
query point's expanded bounding box; it returns `none` exactly when no such
distance exists (empty index, no bbox overlap, or every distance
computation failing).  No comparison against `maxDistance` is performed on
the returned distance. -/
theorem nearestBoundary_min_characterization
    (pointToLineDistance : ℚ × ℚ → Line → Option ℚ) (cosDeg : ℚ → ℚ)
    (index : List ParkBoundaryEntry) (lng lat maxMiles : ℚ) :
    getDistanceToNearestParkBoundaryMiles pointToLineDistance cosDeg index
        lng lat maxMiles
      = listMinQ (boundaryCandidates pointToLineDistance cosDeg index
          lng lat maxMiles) ∧
    (getDistanceToNearestParkBoundaryMiles pointToLineDistance cosDeg index
        lng lat maxMiles = none ↔
      boundaryCandidates pointToLineDistance cosDeg index lng lat maxMiles
        = []) ∧
    (∀ m, getDistanceToNearestParkBoundaryMiles pointToLineDistance cosDeg
        index lng lat maxMiles = some m →
      m ∈ boundaryCandidates pointToLineDistance cosDeg index lng lat
          maxMiles ∧
      ∀ d ∈ boundaryCandidates pointToLineDistance cosDeg index lng lat
          maxMiles, m ≤ d) := by
  have heq : getDistanceToNearestParkBoundaryMiles pointToLineDistance cosDeg
      index lng lat maxMiles
      = listMinQ (boundaryCandidates pointToLineDistance cosDeg index
          lng lat maxMiles) := by
    rw [getDistanceToNearestParkBoundaryMiles, boundaryCandidates, listMinQ]
    by_cases hidx : index.isEmpty
    · rw [if_pos hidx]
      obtain rfl : index = [] := List.isEmpty_iff.mp hidx
      simp
    · rw [if_neg hidx]
      exact foldl_boundary_entries pointToLineDistance lng lat _ index none
  refine ⟨heq, ?_, ?_⟩
  · rw [heq]
    exact listMinQ_none_iff _
  · intro m hm
    rw [heq] at hm
    exact listMinQ_some _ m hm

/-- The concrete boundary segment of the counterexample: from (0, 4) to
(3, 0). -/
def hoverDemoLine : Line := [(0, 4), (3, 0)]

/-- One index entry whose bounding box [0,0,3,4] touches the origin's
expanded query box even though the boundary itself stays 2.4 units away
from the origin. -/
def hoverDemoEntry : ParkBoundaryEntry := ⟨⟨0, 0, 3, 4⟩, [hoverDemoLine]⟩

/-- Exact planar squared distance from a point to a segment (squared so it
stays inside ℚ): project, clamp the parameter to [0,1], measure. -/
def distSqPointSeg (p a b : ℚ × ℚ) : ℚ :=
  let dx := b.1 - a.1
  let dy := b.2 - a.2
  let len2 := dx ^ 2 + dy ^ 2
  if len2 = 0 then (p.1 - a.1) ^ 2 + (p.2 - a.2) ^ 2
  else
    let t := ((p.1 - a.1) * dx + (p.2 - a.2) * dy) / len2
    let tc := max 0 (min 1 t)
    (p.1 - (a.1 + tc * dx)) ^ 2 + (p.2 - (a.2 + tc * dy)) ^ 2

/-- The distance oracle of the counterexample: the exact planar distance
12/5 from the origin to `hoverDemoLine` (certified against
`distSqPointSeg` below). -/
def hoverDemoDist : ℚ × ℚ → Line → Option ℚ := fun p l =>
  if p = (0, 0) ∧ l = hoverDemoLine then some (12/5) else none

/-- C4 counterexample: with one park whose bounding box overlaps the
expanded query box but whose boundary segment (0,4)–(3,0) lies at exact
planar distance 12/5 = 2.4 from the origin — `distSqPointSeg` certifies
(12/5)² — the query at the origin with maxMiles = 1 returns 2.4: a
non-null returned distance strictly greater than maxDistance, refuting the
claim that null is returned whenever no entry lies within maxDistance. -/
theorem nearestBoundary_exceeds_maxMiles :
    getDistanceToNearestParkBoundaryMiles hoverDemoDist (fun _ => 1)
        [hoverDemoEntry] 0 0 1 = some (12/5) ∧
      ¬ ((12/5 : ℚ) ≤ 1) ∧
      distSqPointSeg (0, 0) (0, 4) (3, 0) = (12/5) ^ 2 := by
  refine ⟨?_, by norm_num, ?_⟩
  · norm_num [getDistanceToNearestParkBoundaryMiles, hoverDemoDist,
      hoverDemoEntry, hoverDemoLine, bboxesOverlap, minQStep]
  · norm_num [distSqPointSeg]

/-- C4 witness: the characterization theorem applied at the concrete
counterexample configuration, discharging its hypothesis that the query
returned `some (12/5)`. -/
theorem nearestBoundary_min_witness :
    (12/5 : ℚ) ∈ boundaryCandidates hoverDemoDist (fun _ => 1)
        [hoverDemoEntry] 0 0 1 ∧
      ∀ d ∈ boundaryCandidates hoverDemoDist (fun _ => 1)
          [hoverDemoEntry] 0 0 1, (12/5 : ℚ) ≤ d :=
  (nearestBoundary_min_characterization hoverDemoDist (fun _ => 1)
      [hoverDemoEntry] 0 0 1).2.2 (12/5)
    (by norm_num [getDistanceToNearestParkBoundaryMiles, hoverDemoDist,
      hoverDemoEntry, hoverDemoLine, bboxesOverlap, minQStep])

/-! ### Area coverage estimator (useCommunityAreas.ts lines 241-347) -/

/-- A Community Area record (src/types/index.ts). -/
structure CommunityArea where
  area_numbe : String
  community : String
  shape_area : String
  shape_len : String
  the_geom : Option Geometry

/-- The result record of the coverage estimator: decimal strings as
produced by `Number.toFixed(1)`. -/
structure CoverageResult where
  highPercentage : String
  mediumPercentage : String
  lowPercentage : String
  avgPremium : String
deriving DecidableEq

/-- The fallback / empty-coverage value
`{highPercentage:'0.0', mediumPercentage:'0.0', lowPercentage:'100.0',
avgPremium:'0.0'}`, returned both from the catch handler and from the
no-candidates and no-points short circuits. -/
def fallbackCoverage : CoverageResult := ⟨"0.0", "0.0", "100.0", "0.0"⟩

/-- The per-point bbox pre-check of the sampling loop
(`if (lng < bb[0] || lng > bb[2] || lat < bb[1] || lat > bb[3]) continue`). -/
def pointInBbox (p : ℚ × ℚ) (bb : BBox) : Bool :=
  !(decide (p.1 < bb.minLng) || decide (p.1 > bb.maxLng) ||
    decide (p.2 < bb.minLat) || decide (p.2 > bb.maxLat))

/-- The bbox pre-filter over the buffers (useCommunityAreas.ts lines
263-272): keep each buffer's geometry with its bbox when the bbox overlaps
the area's bbox; `bufferBboxFn = none` models a thrown and ignored
`turf.bbox` error. -/
def survivingBuffers (bufferBboxFn : Geometry → Option BBox)
    (areaBbox : BBox) (parkBuffers : List ValuationBuffer) :
    List (Geometry × BBox) :=
  parkBuffers.filterMap (fun b =>
    match bufferBboxFn b.geometry with
    | none => none
    | some bufferBbox =>
      if bboxesOverlap areaBbox bufferBbox then some (b.geometry, bufferBbox)
      else none)

/-- `analyzeIsochrone` (useCommunityAreas.ts lines 241-347) as a total
function: the two `throw`s of the source (missing geometry, non-positive
area) flow to the catch handler, which returns `fallbackCoverage` as a
value.  Oracles: `areaFn` = `turf.area`, `bboxFn` = `turf.bbox` of the
area, `bufferBboxFn` = per-buffer `turf.bbox` (with try/catch),
`gridFn` = `turf.pointGrid` masked to the area, `pipFn` =
`booleanPointInPolygon` (with try/catch), `fmt` = `Number.toFixed(1)`,
`cached` = the preceding cache lookup. -/
def analyzeIsochrone (areaFn : Geometry → ℚ) (bboxFn : Geometry → BBox)
    (bufferBboxFn : Geometry → Option BBox)
    (gridFn : BBox → Geometry → List (ℚ × ℚ))
    (pipFn : ℚ × ℚ → Geometry → Option Bool) (fmt : ℚ → String)
    (cached : Option CoverageResult) (area : CommunityArea)
    (parkBuffers : List ValuationBuffer) : CoverageResult :=
  match cached with
  | some c => c
  | none =>
    match area.the_geom with
    | none => fallbackCoverage
    | some geom =>
      let totalArea := areaFn geom
      if totalArea ≤ 0 then fallbackCoverage
      else
        let areaBbox := bboxFn geom
        let candidates := survivingBuffers bufferBboxFn areaBbox parkBuffers
        if candidates.isEmpty then fallbackCoverage
        else
          let points := gridFn areaBbox geom
          if points.isEmpty then fallbackCoverage
          else
            let insideCount := points.countP (fun pt =>
              candidates.any (fun c =>
                pointInBbox pt c.2 && (pipFn pt c.1).getD false))
            let insidePct :=
              max 0 (min 100 ((insideCount : ℚ) / points.length * 100))
            let outsidePct := max 0 (100 - insidePct)
            { highPercentage := fmt insidePct,
              mediumPercentage := "0.0",
              lowPercentage := fmt outsidePct,
              avgPremium := fmt (insidePct / 100 * 22.3) }

/-- C5: the coverage estimator never propagates an error: with a cache
miss, a missing geometry, a non-positive planar area, an empty surviving
buffer set after the bbox pre-filter, and an empty masked sample grid each
return the fallback value (inside 0 %, outside 100 %, average premium 0)
as a value rather than a thrown exception. -/
theorem analyzeIsochrone_fallback_cases (areaFn : Geometry → ℚ)
    (bboxFn : Geometry → BBox) (bufferBboxFn : Geometry → Option BBox)
    (gridFn : BBox → Geometry → List (ℚ × ℚ))
    (pipFn : ℚ × ℚ → Geometry → Option Bool) (fmt : ℚ → String)
    (area : CommunityArea) (parkBuffers : List ValuationBuffer) :
    (area.the_geom = none →
      analyzeIsochrone areaFn bboxFn bufferBboxFn gridFn pipFn fmt none
        area parkBuffers = fallbackCoverage) ∧
    (∀ geom, area.the_geom = some geom → areaFn geom ≤ 0 →
      analyzeIsochrone areaFn bboxFn bufferBboxFn gridFn pipFn fmt none
        area parkBuffers = fallbackCoverage) ∧
    (∀ geom, area.the_geom = some geom →
      survivingBuffers bufferBboxFn (bboxFn geom) parkBuffers = [] →
      analyzeIsochrone areaFn bboxFn bufferBboxFn gridFn pipFn fmt none
        area parkBuffers = fallbackCoverage) ∧
    (∀ geom, area.the_geom = some geom → gridFn (bboxFn geom) geom = [] →
      analyzeIsochrone areaFn bboxFn bufferBboxFn gridFn pipFn fmt none
        area parkBuffers = fallbackCoverage) := by
  refine ⟨?_, ?_, ?_, ?_⟩
  · intro h
    simp [analyzeIsochrone, h]
  · intro geom hg hle
    simp [analyzeIsochrone, hg, if_pos hle]
  · intro geom hg hcand
    by_cases hle : areaFn geom ≤ 0
    · simp [analyzeIsochrone, hg, if_pos hle]
    · simp [analyzeIsochrone, hg, if_neg hle, hcand]
  · intro geom hg hgrid
    by_cases hle : areaFn geom ≤ 0
    · simp [analyzeIsochrone, hg, if_pos hle]
    · by_cases hcand :
        (survivingBuffers bufferBboxFn (bboxFn geom) parkBuffers).isEmpty
      · simp [analyzeIsochrone, hg, if_neg hle, hcand]
      · simp [analyzeIsochrone, hg, if_neg hle, hcand, hgrid]

/-- A Community Area with `the_geom: null`. -/
def demoAreaNoGeom : CommunityArea := ⟨"1", "Rogers Park", "0", "0", none⟩

/-- C5 witness: the fallback theorem applied to a concrete area with
missing geometry and trivial geometry oracles. -/
theorem analyzeIsochrone_fallback_witness :
    analyzeIsochrone (fun _ => 0) (fun _ => ⟨0, 0, 0, 0⟩) (fun _ => none)
        (fun _ _ => []) (fun _ _ => none) (fun _ => "0.0") none
        demoAreaNoGeom [] = fallbackCoverage :=
  (analyzeIsochrone_fallback_cases (fun _ => 0) (fun _ => ⟨0, 0, 0, 0⟩)
      (fun _ => none) (fun _ _ => []) (fun _ _ => none) (fun _ => "0.0")
      demoAreaNoGeom []).1 rfl

/-! ### TTL cache (useCache.ts), with localStorage modelled as an
association list of key/value pairs -/

/-- `CacheEntry<T>` (useCache.ts lines 17-21): payload, write timestamp
(ms), time-to-live (ms). -/
structure CacheEntry (V : Type) where
  data : V
  timestamp : ℤ
  ttl : ℤ
deriving DecidableEq

/-- A value held by localStorage: a string that `JSON.parse`s into a
well-formed cache entry; a corrupt string on which `JSON.parse` throws; or
a string that `JSON.parse` accepts (such as `{}` or `5`) but whose result
is not a well-formed cache entry — on such a value the source's `isValid`
compares against `undefined`/`NaN` fields and is false. -/
inductive Stored (V : Type) where
  | entry (e : CacheEntry V)
  | corrupt (raw : String)
  | notAnEntry (raw : String)
deriving DecidableEq

/-- The localStorage model: key/value pairs, keys unique in well-formed
stores. -/
abbrev Store (V : Type) := List (String × Stored V)

/-- `localStorage.getItem`: the value of the first pair carrying the
key. -/
def getItem {V : Type} : Store V → String → Option (Stored V)
  | [], _ => none
  | (k', v') :: tl, k => if k' == k then some v' else getItem tl k

/-- `localStorage.removeItem`. -/
def removeItem {V : Type} (store : Store V) (key : String) : Store V :=
  store.filter (fun kv => kv.1 != key)

/-- A successful `localStorage.setItem`: replace any existing pair with
the key. -/
def setItemList {V : Type} (store : Store V) (key : String) (v : Stored V) :
    Store V :=
  removeItem store key ++ [(key, v)]

/-- JavaScript `String.prototype.startsWith` on the model's keys. -/
def strStartsWith (s p : String) : Bool := p.data.isPrefixOf s.data

/-- `generateKey` (useCache.ts lines 41-43):
`chicago-parks:<namespace>:<identifier>`. -/
def generateKey (ns id : String) : String :=
  "chicago-parks:" ++ ns ++ ":" ++ id

/-- `DEFAULT_TTLS` (useCache.ts lines 26-32), in milliseconds. -/
def DEFAULT_TTLS : List (String × ℤ) :=
  [("COMMUNITY_AREAS", 7 * 24 * 60 * 60 * 1000),
   ("PARKS", 7 * 24 * 60 * 60 * 1000),
   ("WATERWAYS", 7 * 24 * 60 * 60 * 1000),
   ("PROPERTY_DATA", 24 * 60 * 60 * 1000),
   ("GEOMETRIC_CALC", 24 * 60 * 60 * 1000)]

def GEOMETRIC_CALC_TTL : ℤ := 24 * 60 * 60 * 1000

/-- JavaScript `a || dflt` on a number that may be undefined: both
`undefined` and the falsy 0 fall through to the default. -/
def jsOr (a : Option ℤ) (dflt : ℤ) : ℤ :=
  match a with
  | none => dflt
  | some t => if t = 0 then dflt else t

def lookupTTL (ns : String) : Option ℤ :=
  (DEFAULT_TTLS.find? (fun kv => kv.1 == ns)).map (fun kv => kv.2)

/-- `DEFAULT_TTLS[namespace] || DEFAULT_TTLS.GEOMETRIC_CALC` (useCache.ts
line 107). -/
def defaultTTLFor (ns : String) : ℤ := jsOr (lookupTTL ns) GEOMETRIC_CALC_TTL

/-- `isValid` (useCache.ts lines 48-51): `now - timestamp < ttl`. -/
def isValidEntry {V : Type} (now : ℤ) (entry : CacheEntry V) : Bool :=
  decide (now - entry.timestamp < entry.ttl)

/-- `get` (useCache.ts lines 60-87): missing key → miss; corrupt value →
`JSON.parse` throws, the catch handler reports a miss and leaves the store
untouched; a parseable value that is not a well-formed entry → `isValid`'s
`NaN` comparisons are false, so the expired branch removes it and reports
a miss; expired entry → removed and miss; valid entry → hit.  Returns the
result together with the possibly-updated store. -/
def cacheGet {V : Type} (now : ℤ) (store : Store V) (ns id : String) :
    Option V × Store V :=
  let key := generateKey ns id
  match getItem store key with
  | none => (none, store)
  | some (.corrupt _) => (none, store)
  | some (.notAnEntry _) => (none, removeItem store key)
  | some (.entry entry) =>
    if isValidEntry now entry then (some entry.data, store)
    else (none, removeItem store key)

/-- One iteration of the `clearExpired` sweep (useCache.ts lines 162-177)
for a single key: corrupt values (the catch branch), parseable
non-entries (`isValid` false) and expired entries are removed. -/
def clearExpiredStep {V : Type} (now : ℤ) (s : Store V) (key : String) :
    Store V :=
  match getItem s key with
  | none => s
  | some (.corrupt _) => removeItem s key
  | some (.notAnEntry _) => removeItem s key
  | some (.entry entry) =>
    if isValidEntry now entry then s else removeItem s key

/-- `clearExpired` (useCache.ts lines 157-180): sweep every app-prefixed
key of the store. -/
def clearExpired {V : Type} (now : ℤ) (store : Store V) : Store V :=
  let appKeys := (store.map (fun kv => kv.1)).filter
    (fun key => strStartsWith key "chicago-parks:")
  appKeys.foldl (clearExpiredStep now) store

/-- `set` (useCache.ts lines 97-132).  `setItem` models
`localStorage.setItem` (`none` = quota exceeded): the primary write uses
`ttl || DEFAULT_TTLS[namespace] || DEFAULT_TTLS.GEOMETRIC_CALC`; on
failure, `clearExpired()` runs once and the retry uses
`ttl || DEFAULT_TTLS.GEOMETRIC_CALC`; a residual failure is swallowed. -/
def cacheSet {V : Type}
    (setItem : Store V → String → Stored V → Option (Store V)) (now : ℤ)
    (store : Store V) (ns id : String) (data : V) (ttl : Option ℤ) :
    Store V :=
  let key := generateKey ns id
  let finalTtl := jsOr ttl (defaultTTLFor ns)
  match setItem store key (.entry ⟨data, now, finalTtl⟩) with
  | some s => s
  | none =>
    let cleared := clearExpired now store
    let retryTtl := jsOr ttl GEOMETRIC_CALC_TTL
    match setItem cleared key (.entry ⟨data, now, retryTtl⟩) with
    | some s => s
    | none => cleared

theorem getItem_removeItem_self {V : Type} (store : Store V) (key : String) :
    getItem (removeItem store key) key = none := by
  induction store with
  | nil => rfl
  | cons kv tl ih =>
      by_cases h : kv.1 == key
      · have : (kv.1 != key) = false := by simp_all
        simpa [removeItem, List.filter_cons, this] using ih
      · have hne : (kv.1 != key) = true := by simp_all
        simpa [removeItem, List.filter_cons, hne, getItem, h] using ih

theorem getItem_append {V : Type} (s1 s2 : Store V) (key : String)
    (h : getItem s1 key = none) :
    getItem (s1 ++ s2) key = getItem s2 key := by
  induction s1 with
  | nil => rfl
  | cons kv tl ih =>
      by_cases hk : kv.1 == key
      · simp [getItem, hk] at h
      · simp only [getItem, hk] at h
        simpa [getItem, hk] using ih h

theorem getItem_setItemList_self {V : Type} (store : Store V) (key : String)
    (v : Stored V) : getItem (setItemList store key v) key = some v := by
  rw [setItemList, getItem_append _ _ _ (getItem_removeItem_self store key)]
  simp [getItem]

/-- C7: cache round trip.  After `set(ns, id, X)` through an
always-succeeding store write, a `get(ns, id)` at any time strictly before
the entry's TTL has elapsed returns X, and a `get(ns, id)` at or after the
TTL has elapsed returns a miss. -/
theorem cache_roundtrip {V : Type} (store : Store V) (ns id : String)
    (X : V) (ttlArg : Option ℤ) (now now2 : ℤ) :
    (now2 - now < jsOr ttlArg (defaultTTLFor ns) →
      (cacheGet now2
        (cacheSet (fun s k v => some (setItemList s k v)) now store ns id X
          ttlArg) ns id).1 = some X) ∧
    (jsOr ttlArg (defaultTTLFor ns) ≤ now2 - now →
      (cacheGet now2
        (cacheSet (fun s k v => some (setItemList s k v)) now store ns id X
          ttlArg) ns id).1 = none) := by
  have hset : cacheSet (fun s k v => some (setItemList s k v)) now store ns id
      X ttlArg
      = setItemList store (generateKey ns id)
          (.entry ⟨X, now, jsOr ttlArg (defaultTTLFor ns)⟩) := rfl
  rw [hset]
  have hget := getItem_setItemList_self store (generateKey ns id)
    (.entry ⟨X, now, jsOr ttlArg (defaultTTLFor ns)⟩)
  constructor
  · intro hlt
    simp [cacheGet, hget, isValidEntry, hlt]
  · intro hge
    simp [cacheGet, hget, isValidEntry, not_lt.mpr hge]

/-- C7 witness: the round trip at namespace PARKS, with the 7-day default
TTL, read back 1 ms after the write and read again once the TTL has
elapsed. -/
theorem cache_roundtrip_witness :
    ((1 : ℤ) - 0 < jsOr none (defaultTTLFor "PARKS") ∧
      (cacheGet 1
        (cacheSet (fun s k v => some (setItemList s k v)) 0 ([] : Store ℕ)
          "PARKS" "all" 7 none) "PARKS" "all").1 = some 7) ∧
    (jsOr none (defaultTTLFor "PARKS") ≤ (604800000 : ℤ) - 0 ∧
      (cacheGet 604800000
        (cacheSet (fun s k v => some (setItemList s k v)) 0 ([] : Store ℕ)
          "PARKS" "all" 7 none) "PARKS" "all").1 = none) :=
  ⟨⟨by decide,
    (cache_roundtrip ([] : Store ℕ) "PARKS" "all" 7 none 0 1).1 (by decide)⟩,
   ⟨by decide,
    (cache_roundtrip ([] : Store ℕ) "PARKS" "all" 7 none 0 604800000).2
      (by decide)⟩⟩

/-- C8 (amended): `get` on a malformed stored value always fails soft —
it reports a cache miss without throwing — but only the parseable kind is
deleted.  A value on which `JSON.parse` throws reaches the catch handler,
which leaves the store unchanged (such values are deleted only by
`clearExpired`); a value that parses but is not a well-formed cache entry
fails `isValid` and is deleted by `get`'s expired branch. -/
theorem cacheGet_malformed_soft_miss {V : Type} (now : ℤ) (store : Store V)
    (ns id raw : String) :
    (getItem store (generateKey ns id) = some (.corrupt raw) →
      cacheGet now store ns id = (none, store)) ∧
    (getItem store (generateKey ns id) = some (.notAnEntry raw) →
      cacheGet now store ns id =
        (none, removeItem store (generateKey ns id))) := by
  constructor
  · intro h
    simp [cacheGet, h]
  · intro h
    simp [cacheGet, h]

/-- A store holding one corrupt app entry. -/
def corruptStore : Store ℕ := [("chicago-parks:PARKS:all", .corrupt "not json")]

/-- C8 counterexample: `get` on the corrupt entry returns a miss, but the
resulting store still contains the malformed entry — refuting the claim
that the malformed entry is deleted as part of the `get` call. -/
theorem cacheGet_corrupt_not_deleted :
    (cacheGet 0 corruptStore "PARKS" "all").1 = none ∧
      (cacheGet 0 corruptStore "PARKS" "all").2 = corruptStore ∧
      ("chicago-parks:PARKS:all", (Stored.corrupt "not json" : Stored ℕ)) ∈
        (cacheGet 0 corruptStore "PARKS" "all").2 := by
  refine ⟨?_, ?_, ?_⟩ <;> decide

/-- A store holding one app entry that parses as JSON but is not a
well-formed cache entry (such as the string `{}`). -/
def parsedJunkStore : Store ℕ :=
  [("chicago-parks:PARKS:all", .notAnEntry "{}")]

/-- C8 witness: the soft-miss theorem applied to both malformed kinds —
the parse-throwing value is left in place, the parseable non-entry is
deleted. -/
theorem cacheGet_malformed_soft_miss_witness :
    (cacheGet 0 corruptStore "PARKS" "all" = (none, corruptStore)) ∧
    (cacheGet 0 parsedJunkStore "PARKS" "all" =
      (none, removeItem parsedJunkStore (generateKey "PARKS" "all"))) :=
  ⟨(cacheGet_malformed_soft_miss 0 corruptStore "PARKS" "all"
      "not json").1 (by decide),
   (cacheGet_malformed_soft_miss 0 parsedJunkStore "PARKS" "all"
      "{}").2 (by decide)⟩

/-- C9 (amended): the TTL attached by `set`.  On the primary write path
the stored entry carries `ttl || DEFAULT_TTLS[namespace] ||
DEFAULT_TTLS.GEOMETRIC_CALC` — i.e. the namespace's default from the fixed
table (COMMUNITY_AREAS and PARKS: 7 days; GEOMETRIC_CALC: 1 day) when no
per-call TTL is given.  On the retry write after a quota failure, the
stored entry carries `ttl || DEFAULT_TTLS.GEOMETRIC_CALC`: the 1-day
GEOMETRIC_CALC default regardless of namespace.  A non-zero per-call TTL
overrides both paths. -/
theorem cacheSet_ttl_paths {V : Type}
    (setItem : Store V → String → Stored V → Option (Store V)) (now : ℤ)
    (store : Store V) (ns id : String) (data : V) (ttl : Option ℤ) :
    (∀ s1, setItem store (generateKey ns id)
        (.entry ⟨data, now, jsOr ttl (defaultTTLFor ns)⟩) = some s1 →
      cacheSet setItem now store ns id data ttl = s1) ∧
    (setItem store (generateKey ns id)
        (.entry ⟨data, now, jsOr ttl (defaultTTLFor ns)⟩) = none →
      ∀ s2, setItem (clearExpired now store) (generateKey ns id)
          (.entry ⟨data, now, jsOr ttl GEOMETRIC_CALC_TTL⟩) = some s2 →
        cacheSet setItem now store ns id data ttl = s2) ∧
    defaultTTLFor "COMMUNITY_AREAS" = 7 * 24 * 60 * 60 * 1000 ∧
    defaultTTLFor "PARKS" = 7 * 24 * 60 * 60 * 1000 ∧
    defaultTTLFor "GEOMETRIC_CALC" = 24 * 60 * 60 * 1000 ∧
    (∀ t : ℤ, t ≠ 0 → jsOr (some t) (defaultTTLFor ns) = t ∧
      jsOr (some t) GEOMETRIC_CALC_TTL = t) := by
  refine ⟨?_, ?_, by decide, by decide, by decide, ?_⟩
  · intro s1 h1
    simp [cacheSet, h1]
  · intro h1 s2 h2
    simp [cacheSet, h1, h2]
  · intro t ht
    simp [jsOr, ht]

/-- The stale entry whose presence makes the quota oracle fail. -/
def expiredJunkKey : String := "chicago-parks:GEOMETRIC_CALC:old"

/-- A store holding only an expired app entry (written at 0, TTL 1 ms). -/
def quotaStore : Store ℕ := [(expiredJunkKey, .entry ⟨0, 0, 1⟩)]

/-- A `localStorage.setItem` model that throws a quota error while the
stale entry is present and succeeds once `clearExpired` has removed it. -/
def quotaSetItem : Store ℕ → String → Stored ℕ → Option (Store ℕ) :=
  fun s k v =>
    if (getItem s expiredJunkKey).isSome then none
    else some (setItemList s k v)

/-- C9 counterexample: a `set('COMMUNITY_AREAS', 'all', 5)` with no
per-call TTL whose primary write hits the quota failure stores, on the
retry path, an entry with the 1-day GEOMETRIC_CALC TTL — not the 7-day
COMMUNITY_AREAS namespace default the claim requires on both paths. -/
theorem cacheSet_retry_ttl_counterexample :
    getItem
        (cacheSet quotaSetItem 100 quotaStore "COMMUNITY_AREAS" "all" 5 none)
        (generateKey "COMMUNITY_AREAS" "all")
      = some (.entry ⟨5, 100, 24 * 60 * 60 * 1000⟩) ∧
    (24 * 60 * 60 * 1000 : ℤ) ≠ 7 * 24 * 60 * 60 * 1000 ∧
    defaultTTLFor "COMMUNITY_AREAS" = 7 * 24 * 60 * 60 * 1000 := by
  refine ⟨?_, by decide, by decide⟩
  decide

/-- C9 witness: the TTL-path theorem applied at the concrete quota
scenario, discharging both the primary-failure and retry-success
hypotheses. -/
theorem cacheSet_ttl_paths_witness :
    cacheSet quotaSetItem 100 quotaStore "COMMUNITY_AREAS" "all" 5 none
      = setItemList (clearExpired 100 quotaStore)
          (generateKey "COMMUNITY_AREAS" "all")
          (.entry ⟨5, 100, jsOr none GEOMETRIC_CALC_TTL⟩) :=
  ((cacheSet_ttl_paths quotaSetItem 100 quotaStore "COMMUNITY_AREAS" "all" 5
      none).2.1 (by decide)) _ (by decide)

/-- What the sweep keeps among app-prefixed pairs: well-formed entries that
are still unexpired. -/
def keepStored {V : Type} (now : ℤ) : Stored V → Bool
  | .entry e => isValidEntry now e
  | .corrupt _ => false
  | .notAnEntry _ => false

theorem getItem_eq_some_of_mem {V : Type} :
    ∀ {store : Store V} {k : String} {v : Stored V},
      (store.map Prod.fst).Nodup → (k, v) ∈ store →
      getItem store k = some v := by
  intro store
  induction store with
  | nil => intro k v _ hm; simp at hm
  | cons kv tl ih =>
      intro k v hnd hm
      obtain ⟨k', v'⟩ := kv
      rw [List.map_cons] at hnd
      have hnd' := List.nodup_cons.mp hnd
      rcases List.mem_cons.mp hm with h | h
      · injection h with h1 h2
        subst h1; subst h2
        simp [getItem]
      · have hk : k' ≠ k := by
          intro heq
          subst heq
          exact hnd'.1 (by simpa using List.mem_map_of_mem Prod.fst h)
        rw [getItem, if_neg (by simpa using hk)]
        exact ih hnd'.2 h

theorem getItem_eq_none_not_mem {V : Type} :
    ∀ {store : Store V} {k : String}, getItem store k = none →
      ∀ v, (k, v) ∉ store := by
  intro store
  induction store with
  | nil => intro k _ v hm; simp at hm
  | cons kv tl ih =>
      intro k hnone v hm
      obtain ⟨k', v'⟩ := kv
      by_cases hk : (k' == k) = true
      · rw [getItem, if_pos hk] at hnone
        exact Option.noConfusion hnone
      · rw [getItem, if_neg hk] at hnone
        rcases List.mem_cons.mp hm with h | h
        · injection h with h1 _
          subst h1
          simp at hk
        · exact ih hnone v h

theorem removeItem_keys_nodup {V : Type} {s : Store V}
    (h : (s.map Prod.fst).Nodup) (k : String) :
    ((removeItem s k).map Prod.fst).Nodup :=
  List.Sublist.nodup ((List.filter_sublist s).map Prod.fst) h

theorem clearExpiredStep_eq_or {V : Type} (now : ℤ) (s : Store V)
    (k : String) :
    clearExpiredStep now s k = s ∨
      clearExpiredStep now s k = removeItem s k := by
  cases h : getItem s k with
  | none => exact Or.inl (by simp [clearExpiredStep, h])
  | some v =>
      cases v with
      | corrupt raw => exact Or.inr (by simp [clearExpiredStep, h])
      | notAnEntry raw => exact Or.inr (by simp [clearExpiredStep, h])
      | entry e =>
          by_cases hv : isValidEntry now e
          · exact Or.inl (by simp [clearExpiredStep, h, hv])
          · exact Or.inr (by simp [clearExpiredStep, h, hv])

theorem clearExpiredStep_keys_nodup {V : Type} {now : ℤ} {s : Store V}
    {k : String} (h : (s.map Prod.fst).Nodup) :
    (((clearExpiredStep now s k) : Store V).map Prod.fst).Nodup := by
  rcases clearExpiredStep_eq_or now s k with he | he <;> rw [he]
  · exact h
  · exact removeItem_keys_nodup h k

theorem clearExpiredStep_of_getItem_some {V : Type} {now : ℤ} {s : Store V}
    {k : String} {v : Stored V} (h : getItem s k = some v) :
    clearExpiredStep now s k =
      if keepStored now v then s else removeItem s k := by
  cases v with
  | corrupt raw => simp [clearExpiredStep, h, keepStored]
  | notAnEntry raw => simp [clearExpiredStep, h, keepStored]
  | entry e =>
      by_cases hv : isValidEntry now e <;>
        simp [clearExpiredStep, h, keepStored, hv]

theorem clearExpired_foldl_eq {V : Type} (now : ℤ) :
    ∀ (ks : List String) (s : Store V), (s.map Prod.fst).Nodup →
      ks.foldl (clearExpiredStep now) s
        = s.filter (fun kv => !(ks.contains kv.1) || keepStored now kv.2) := by
  intro ks
  induction ks with
  | nil => intro s hnd; simp
  | cons k ks ih =>
      intro s hnd
      rw [List.foldl_cons, ih _ (clearExpiredStep_keys_nodup hnd)]
      cases hget : getItem s k with
      | none =>
          have hstep : clearExpiredStep now s k = s := by
            simp [clearExpiredStep, hget]
          rw [hstep]
          apply List.filter_congr
          intro kv hm
          have hne : kv.1 ≠ k := by
            intro heq
            exact getItem_eq_none_not_mem hget kv.2 (by
              rw [← heq] at *
              simpa using hm)
          have hbe : (kv.1 == k) = false := by simpa using hne
          simp [List.contains_cons, hbe, hne]
      | some v =>
          rw [clearExpiredStep_of_getItem_some hget]
          cases hkp : keepStored now v with
          | true =>
              rw [if_pos (by simp [hkp])]
              apply List.filter_congr
              intro kv hm
              by_cases hk : kv.1 = k
              · have hv2 : kv.2 = v := by
                  have h1 := getItem_eq_some_of_mem hnd
                    (show (kv.1, kv.2) ∈ s by simpa using hm)
                  rw [hk, hget] at h1
                  injection h1.symm
                simp [List.contains_cons, hv2, hkp, hk]
              · have hbe : (kv.1 == k) = false := by simpa using hk
                simp [List.contains_cons, hbe, hk]
          | false =>
              rw [if_neg (by simp [hkp])]
              rw [removeItem, List.filter_filter]
              apply List.filter_congr
              intro kv hm
              by_cases hk : kv.1 = k
              · have hv2 : kv.2 = v := by
                  have h1 := getItem_eq_some_of_mem hnd
                    (show (kv.1, kv.2) ∈ s by simpa using hm)
                  rw [hk, hget] at h1
                  injection h1.symm
                have hbe : (kv.1 == k) = true := by simpa using hk
                simp [List.contains_cons, hbe, hv2, hkp, hk]
              · have hbe : (kv.1 == k) = false := by simpa using hk
                simp [List.contains_cons, hbe, hk]

/-- C10: `clearExpired` removes exactly the app-prefixed pairs whose
stored value is corrupt or whose entry has expired: a pair survives the
sweep iff it was in the store and — when its key carries the
`chicago-parks:` app prefix — its value is a well-formed, unexpired
entry.  Keys outside the app prefix are untouched. -/
theorem clearExpired_characterization {V : Type} (now : ℤ) (store : Store V)
    (hnd : (store.map Prod.fst).Nodup) (k : String) (v : Stored V) :
    (k, v) ∈ clearExpired now store ↔
      ((k, v) ∈ store ∧
        (strStartsWith k "chicago-parks:" = true →
          keepStored now v = true)) := by
  rw [clearExpired]
  rw [clearExpired_foldl_eq now _ store hnd]
  rw [List.mem_filter]
  constructor
  · rintro ⟨hm, hp⟩
    refine ⟨hm, fun hpref => ?_⟩
    have hkeys : k ∈ (store.map (fun kv => kv.1)).filter
        (fun key => strStartsWith key "chicago-parks:") :=
      List.mem_filter.mpr ⟨by simpa using List.mem_map_of_mem Prod.fst hm,
        hpref⟩
    have hcont : ((store.map (fun kv => kv.1)).filter
        (fun key => strStartsWith key "chicago-parks:")).contains k
        = true := by simpa using hkeys
    have hp' : (!(((store.map (fun kv => kv.1)).filter
        (fun key => strStartsWith key "chicago-parks:")).contains k)
        || keepStored now v) = true := hp
    rw [hcont] at hp'
    simpa using hp'
  · rintro ⟨hm, himp⟩
    refine ⟨hm, ?_⟩
    show (!(((store.map (fun kv => kv.1)).filter
        (fun key => strStartsWith key "chicago-parks:")).contains k)
        || keepStored now v) = true
    by_cases hpref : strStartsWith k "chicago-parks:" = true
    · rw [himp hpref]
      simp
    · have hnk : k ∉ (store.map (fun kv => kv.1)).filter
          (fun key => strStartsWith key "chicago-parks:") := by
        intro hk
        exact hpref (List.mem_filter.mp hk).2
      have hcont : ((store.map (fun kv => kv.1)).filter
          (fun key => strStartsWith key "chicago-parks:")).contains k
          = false := by simpa using hnk
      rw [hcont]
      simp

/-- A store mixing a fresh app entry, an expired app entry, a corrupt app
entry and a non-app key (expired, but outside the sweep's prefix). -/
def sweepDemoStore : Store ℕ :=
  [("chicago-parks:PARKS:fresh", .entry ⟨1, 90, 100⟩),
   ("chicago-parks:PARKS:stale", .entry ⟨2, 0, 50⟩),
   ("chicago-parks:GEOMETRIC_CALC:bad", .corrupt "junk"),
   ("user-setting", .entry ⟨3, 0, 1⟩)]

/-- C10 witness: the characterization applied at time 100 to the concrete
store — the fresh app entry and the non-app key survive, and membership of
the non-app expired key is certified through the theorem. -/
theorem clearExpired_characterization_witness :
    ("user-setting", (Stored.entry ⟨3, 0, 1⟩ : Stored ℕ)) ∈
      clearExpired 100 sweepDemoStore ∧
    ("chicago-parks:PARKS:fresh", (Stored.entry ⟨1, 90, 100⟩ : Stored ℕ)) ∈
      clearExpired 100 sweepDemoStore :=
  ⟨(clearExpired_characterization 100 sweepDemoStore (by decide)
      "user-setting" (.entry ⟨3, 0, 1⟩)).mpr ⟨by decide, by decide⟩,
   (clearExpired_characterization 100 sweepDemoStore (by decide)
      "chicago-parks:PARKS:fresh" (.entry ⟨1, 90, 100⟩)).mpr
     ⟨by decide, by decide⟩⟩
